import Mathlib

/-!
Shallow embedding of the Course Correct backend route handlers.

Timestamps are modelled as natural numbers (milliseconds since the epoch);
a `day` field is the timestamp of that day's local midnight, so the value
produced by `setHours(23, 59, 59, 999)` on it is `day + 86399999`.
Roles and statuses are the literal strings the handlers compare against.
A request field guarded in JavaScript by a truthiness test (`if (x)`) is
modelled as an `Option` that is `some` exactly when the value is truthy;
a field guarded by `x !== undefined` is `some` when the field is present.
Each handler takes the collections it reads as lists and returns its
outcome together with the updated collections.
-/

namespace CourseCorrect

structure Principal where
  id : Nat
  role : String
deriving DecidableEq

structure Slot where
  id : Nat
  tutor : Nat
  day : Nat
  subject : String
  startTime : Nat
  endTime : Nat
  isActive : Bool
deriving DecidableEq

structure Booking where
  id : Nat
  student : Nat
  tutor : Nat
  subject : String
  bookingTime : Nat
  status : String
deriving DecidableEq

structure UserRec where
  id : Nat
  tutoringAvailability : List Nat
  joinedStudyGroups : List Nat
deriving DecidableEq

structure StudyGroup where
  id : Nat
  title : String
  subject : String
  description : String
  date : String
  time : String
  duration : String
  creator : Nat
  participants : List Nat
deriving DecidableEq

/-- `l.map` that rewrites exactly the elements satisfying `p`; models a
document-store update of the matching documents. -/
def updateWhere (p : α → Bool) (f : α → α) (l : List α) : List α :=
  l.map (fun x => if p x then f x else x)

/-! ### POST /api/tutors/availability  (src/backend/server.js) -/

structure SlotReq where
  day : Nat
  subject : String
  startTime : Nat
  endTime : Nat
deriving DecidableEq

inductive PostAvailResult
  | forbiddenRole
  | pastStart (subject : String)
  | outOfOrder (subject : String) (floor : Nat)
  | created (ids : List Nat)
deriving DecidableEq

/-- Stable insertion of a slot into a list sorted by `startTime` ascending. -/
def insertByStart (x : Slot) : List Slot → List Slot
  | [] => [x]
  | y :: ys => if y.startTime ≤ x.startTime then y :: insertByStart x ys else x :: y :: ys

/-- The handler's `sort` on the fetched day slots: `startTime` ascending. -/
def sortByStart : List Slot → List Slot
  | [] => []
  | x :: xs => insertByStart x (sortByStart xs)

/-- The loop body of the POST handler: validate and persist each proposed
slot in order, threading the availability collection; an error aborts the
loop but keeps the slots already saved. -/
def processSlots (now tid : Nat) : List SlotReq → Nat → List Slot → List Nat →
    PostAvailResult × List Slot
  | [], _, db, acc => (.created acc, db)
  | r :: rest, nextId, db, acc =>
    if r.startTime < now then (.pastStart r.subject, db)
    else
      let existing := sortByStart (db.filter (fun s => s.tutor == tid && s.day == r.day))
      let floor :=
        match existing.getLast? with
        | some lastSlot => lastSlot.endTime
        | none => r.startTime
      if r.startTime < floor then (.outOfOrder r.subject floor, db)
      else
        processSlots now tid rest (nextId + 1)
          (db ++ [⟨nextId, tid, r.day, r.subject, r.startTime, r.endTime, true⟩])
          (acc ++ [nextId])

/-- POST /api/tutors/availability: role gate, per-slot loop, then a single
push of every created id onto the user's `tutoringAvailability`. -/
def postAvailability (user : Principal) (reqs : List SlotReq) (now nextId : Nat)
    (slots : List Slot) (users : List UserRec) :
    PostAvailResult × List Slot × List UserRec :=
  if user.role = "tutor" then
    match processSlots now user.id reqs nextId slots [] with
    | (.created ids, db) =>
      (.created ids, db,
        updateWhere (fun u => u.id == user.id)
          (fun u => { u with tutoringAvailability := u.tutoringAvailability ++ ids }) users)
    | (r, db) => (r, db, users)
  else (.forbiddenRole, slots, users)

/-! ### PATCH and DELETE /api/tutors/availability/:id -/

/-- The booking-conflict query: some booking of tutor `tid` has
`lo ≤ bookingTime < hi` (the handlers pass `$gte` and `$lt`). -/
def hasBookingConflict (tid lo hi : Nat) (bookings : List Booking) : Bool :=
  bookings.any (fun b => b.tutor == tid && (lo ≤ b.bookingTime && b.bookingTime < hi))

def findSlot (sid : Nat) (slots : List Slot) : Option Slot :=
  slots.find? (fun s => s.id == sid)

structure PatchAvailReq where
  subject : Option String
  startTime : Option Nat
  endTime : Option Nat
  disableDay : Bool
  isActive : Option Bool
deriving DecidableEq

inductive PatchAvailResult
  | forbiddenRole
  | notFound
  | slotAlreadyBooked
  | dayHasBookings
  | dayDisabled
  | updated (a : Slot)
deriving DecidableEq

/-- The field-by-field update at the end of the PATCH handler
(`if (subject) ...` etc.; `isActive` is tested against `undefined`). -/
def applySlotEdits (a : Slot) (req : PatchAvailReq) : Slot :=
  { a with
    subject := req.subject.getD a.subject
    startTime := req.startTime.getD a.startTime
    endTime := req.endTime.getD a.endTime
    isActive := req.isActive.getD a.isActive }

/-- Milliseconds from local midnight to `setHours(23, 59, 59, 999)`. -/
def dayEndMs : Nat := 86399999

/-- PATCH /api/tutors/availability/:id. -/
def patchAvailability (user : Principal) (sid : Nat) (req : PatchAvailReq)
    (slots : List Slot) (bookings : List Booking) :
    PatchAvailResult × List Slot :=
  if user.role = "tutor" then
    match findSlot sid slots with
    | none => (.notFound, slots)
    | some a =>
      if hasBookingConflict user.id a.startTime a.endTime bookings then
        (.slotAlreadyBooked, slots)
      else if req.disableDay then
        if hasBookingConflict user.id a.day (a.day + dayEndMs) bookings then
          (.dayHasBookings, slots)
        else
          (.dayDisabled,
            updateWhere (fun s => s.tutor == user.id && s.day == a.day)
              (fun s => { s with isActive := false }) slots)
      else
        (.updated (applySlotEdits a req),
          updateWhere (fun s => s.id == sid) (fun _ => applySlotEdits a req) slots)
  else (.forbiddenRole, slots)

inductive DeleteAvailResult
  | forbiddenRole
  | notFound
  | slotBooked
  | deleted
deriving DecidableEq

/-- DELETE /api/tutors/availability/:id; note it never touches the users
collection. -/
def deleteAvailability (user : Principal) (sid : Nat) (slots : List Slot)
    (bookings : List Booking) (users : List UserRec) :
    DeleteAvailResult × List Slot × List UserRec :=
  if user.role = "tutor" then
    match findSlot sid slots with
    | none => (.notFound, slots, users)
    | some a =>
      if hasBookingConflict user.id a.startTime a.endTime bookings then
        (.slotBooked, slots, users)
      else
        (.deleted, slots.eraseP (fun s => s.id == sid), users)
  else (.forbiddenRole, slots, users)

/-! ### PATCH /api/bookings/:id  (src/unnamed/part_000) -/

structure PatchBookingReq where
  status : Option String
  bookingTime : Option Nat
deriving DecidableEq

inductive PatchBookingResult
  | notFound
  | invalidStatus
  | forbiddenTransition
  | updated (b : Booking)
deriving DecidableEq

def validStatuses : List String := ["confirmed", "completed", "cancelled"]

/-- The tail of the PATCH handler: optional `bookingTime` overwrite, then
`booking.save()`. -/
def saveBookingPatch (bid : Nat) (req : PatchBookingReq) (booking : Booking)
    (bookings : List Booking) : PatchBookingResult × List Booking :=
  let b := { booking with bookingTime := req.bookingTime.getD booking.bookingTime }
  (.updated b, updateWhere (fun x => x.id == bid) (fun _ => b) bookings)

/-- PATCH /api/bookings/:id. -/
def patchBooking (user : Principal) (bid : Nat) (req : PatchBookingReq)
    (bookings : List Booking) : PatchBookingResult × List Booking :=
  match bookings.find? (fun b => b.id == bid) with
  | none => (.notFound, bookings)
  | some booking =>
    match req.status with
    | none => saveBookingPatch bid req booking bookings
    | some s =>
      if ¬ validStatuses.contains s then (.invalidStatus, bookings)
      else if user.role = "tutor" then
        if s = "confirmed" ∨ s = "completed" then
          saveBookingPatch bid req { booking with status := s } bookings
        else (.forbiddenTransition, bookings)
      else if user.role = "student" then
        if s = "cancelled" then
          saveBookingPatch bid req { booking with status := s } bookings
        else (.forbiddenTransition, bookings)
      else saveBookingPatch bid req booking bookings

/-! ### Study group routes  (src/unnamed/part_001) -/

structure GroupReq where
  title : String
  subject : String
  description : String
  date : String
  time : String
  duration : String
deriving DecidableEq

inductive CreateGroupResult
  | forbiddenRole
  | createdGroup (g : StudyGroup)
deriving DecidableEq

/-- POST /api/studyGroups: creator becomes the sole participant and the new
group id is pushed onto the creator's `joinedStudyGroups`. -/
def createGroup (user : Principal) (newId : Nat) (req : GroupReq)
    (groups : List StudyGroup) (users : List UserRec) :
    CreateGroupResult × List StudyGroup × List UserRec :=
  if user.role = "student" then
    let g : StudyGroup :=
      ⟨newId, req.title, req.subject, req.description, req.date, req.time, req.duration,
        user.id, [user.id]⟩
    (.createdGroup g, groups ++ [g],
      updateWhere (fun u => u.id == user.id)
        (fun u => { u with joinedStudyGroups := u.joinedStudyGroups ++ [newId] }) users)
  else (.forbiddenRole, groups, users)

def findGroup (gid : Nat) (groups : List StudyGroup) : Option StudyGroup :=
  groups.find? (fun g => g.id == gid)

inductive JoinResult
  | notFound
  | forbiddenRole
  | alreadyCreator
  | alreadyJoined
  | joined (g : StudyGroup)
deriving DecidableEq

/-- POST /api/studyGroups/:id/join. -/
def joinGroup (user : Principal) (gid : Nat) (groups : List StudyGroup)
    (users : List UserRec) : JoinResult × List StudyGroup × List UserRec :=
  match findGroup gid groups with
  | none => (.notFound, groups, users)
  | some g =>
    if user.role ≠ "student" then (.forbiddenRole, groups, users)
    else if g.creator = user.id then (.alreadyCreator, groups, users)
    else if g.participants.contains user.id then (.alreadyJoined, groups, users)
    else
      let g' := { g with participants := g.participants ++ [user.id] }
      (.joined g',
        updateWhere (fun h => h.id == gid) (fun _ => g') groups,
        updateWhere (fun u => u.id == user.id)
          (fun u => { u with joinedStudyGroups := u.joinedStudyGroups ++ [gid] }) users)

inductive LeaveResult
  | notFound
  | forbiddenRole
  | creatorCannotLeave
  | notAParticipant
  | left (g : StudyGroup)
deriving DecidableEq

/-- POST /api/studyGroups/:id/leave; the `$pull` removes every occurrence
of the group id from `joinedStudyGroups`, and the participant filter keeps
every entry different from the requester. -/
def leaveGroup (user : Principal) (gid : Nat) (groups : List StudyGroup)
    (users : List UserRec) : LeaveResult × List StudyGroup × List UserRec :=
  match findGroup gid groups with
  | none => (.notFound, groups, users)
  | some g =>
    if user.role ≠ "student" then (.forbiddenRole, groups, users)
    else if g.creator = user.id then (.creatorCannotLeave, groups, users)
    else if ¬ g.participants.contains user.id then (.notAParticipant, groups, users)
    else
      let g' := { g with participants := g.participants.filter (fun p => p != user.id) }
      (.left g',
        updateWhere (fun h => h.id == gid) (fun _ => g') groups,
        updateWhere (fun u => u.id == user.id)
          (fun u => { u with joinedStudyGroups := u.joinedStudyGroups.filter (fun x => x != gid) })
          users)

structure UpdateGroupReq where
  subject : Option String
  description : Option String
  date : Option String
  time : Option String
  duration : Option String
deriving DecidableEq

inductive UpdateGroupResult
  | notFound
  | forbiddenEditor
  | groupLocked
  | updated (g : StudyGroup)
deriving DecidableEq

/-- PATCH /api/studyGroups/:id (`description` is tested against
`undefined`, the other fields by truthiness). -/
def updateGroup (user : Principal) (gid : Nat) (req : UpdateGroupReq)
    (groups : List StudyGroup) : UpdateGroupResult × List StudyGroup :=
  match findGroup gid groups with
  | none => (.notFound, groups)
  | some g =>
    if g.creator ≠ user.id then (.forbiddenEditor, groups)
    else if 1 < g.participants.length ∧
        (req.subject.isSome ∨ req.date.isSome ∨ req.time.isSome) then
      (.groupLocked, groups)
    else
      let g' := { g with
        subject := req.subject.getD g.subject
        description := req.description.getD g.description
        date := req.date.getD g.date
        time := req.time.getD g.time
        duration := req.duration.getD g.duration }
      (.updated g', updateWhere (fun h => h.id == gid) (fun _ => g') groups)

inductive DeleteGroupResult
  | notFound
  | forbiddenEditor
  | hasParticipants
  | deletedGroup
deriving DecidableEq

/-- DELETE /api/studyGroups/:id: pulls the id from the creator's
`joinedStudyGroups` and deletes the group. -/
def deleteGroup (user : Principal) (gid : Nat) (groups : List StudyGroup)
    (users : List UserRec) : DeleteGroupResult × List StudyGroup × List UserRec :=
  match findGroup gid groups with
  | none => (.notFound, groups, users)
  | some g =>
    if g.creator ≠ user.id then (.forbiddenEditor, groups, users)
    else if (g.participants.filter (fun p => p != user.id)) ≠ [] then
      (.hasParticipants, groups, users)
    else
      (.deletedGroup,
        groups.eraseP (fun h => h.id == gid),
        updateWhere (fun u => u.id == g.creator)
          (fun u => { u with joinedStudyGroups := u.joinedStudyGroups.filter (fun x => x != gid) })
          users)

/-! ### Helper lemmas -/

theorem mem_updateWhere {α} {p : α → Bool} {f : α → α} {l : List α} {x : α}
    (hx : x ∈ updateWhere p f l) :
    (∃ y ∈ l, p y = true ∧ x = f y) ∨ (x ∈ l ∧ p x = false) := by
  rcases List.mem_map.mp hx with ⟨y, hy, hxy⟩
  by_cases hp : p y = true
  · left; exact ⟨y, hy, hp, by rw [← hxy, if_pos hp]⟩
  · right
    have : x = y := by rw [← hxy, if_neg hp]
    subst this
    exact ⟨hy, Bool.eq_false_iff.mpr hp⟩

theorem find_updateWhere {α} {p : α → Bool} (f : α → α) {l : List α} {a : α}
    (hf : ∀ x, p x = true → p (f x) = true)
    (h : l.find? p = some a) :
    (updateWhere p f l).find? p = some (f a) := by
  induction l with
  | nil => simp [List.find?] at h
  | cons x xs ih =>
    rw [updateWhere, List.map_cons]
    by_cases hx : p x = true
    · rw [List.find?_cons_of_pos _ hx] at h
      injection h with h
      subst h
      rw [if_pos hx, List.find?_cons_of_pos _ (hf x hx)]
    · rw [List.find?_cons_of_neg _ hx] at h
      rw [if_neg hx, List.find?_cons_of_neg _ hx]
      exact ih h

theorem hasBookingConflict_iff (tid lo hi : Nat) (bookings : List Booking) :
    hasBookingConflict tid lo hi bookings = true ↔
      ∃ b ∈ bookings, b.tutor = tid ∧ lo ≤ b.bookingTime ∧ b.bookingTime < hi := by
  simp [hasBookingConflict, List.any_eq_true]

theorem filter_ne_append_self {l : List Nat} {u : Nat} (h : u ∉ l) :
    (l ++ [u]).filter (fun p => p != u) = l := by
  rw [List.filter_append]
  have h1 : [u].filter (fun p => p != u) = [] := by simp
  rw [h1, List.append_nil]
  refine List.filter_eq_self.mpr ?_
  intro a ha
  simp only [bne_iff_ne, ne_eq, decide_eq_true_eq]
  exact fun hau => h (hau ▸ ha)

/-- The POST loop on a single proposed slot, once the past-time check
passes and the tutor's day has a latest (sorted-last) slot. -/
theorem processSlots_single (now tid : Nat) (r : SlotReq) (nextId : Nat)
    (db : List Slot) (lastSlot : Slot)
    (hpast : ¬ r.startTime < now)
    (hdb : (sortByStart (db.filter (fun s => s.tutor == tid && s.day == r.day))).getLast?
      = some lastSlot) :
    processSlots now tid [r] nextId db [] =
      (if r.startTime < lastSlot.endTime
       then (.outOfOrder r.subject lastSlot.endTime, db)
       else (.created [nextId],
         db ++ [⟨nextId, tid, r.day, r.subject, r.startTime, r.endTime, true⟩])) := by
  rw [processSlots, if_neg hpast]
  simp only [hdb]
  by_cases h : r.startTime < lastSlot.endTime
  · rw [if_pos h, if_pos h]
  · rw [if_neg h, if_neg h, processSlots]
    simp

/-- Unfolding of the PATCH availability handler past role and lookup. -/
theorem patchAvailability_unfold (user : Principal) (sid : Nat) (req : PatchAvailReq)
    (slots : List Slot) (bookings : List Booking) (a : Slot)
    (hrole : user.role = "tutor") (hfind : findSlot sid slots = some a) :
    patchAvailability user sid req slots bookings =
      (if hasBookingConflict user.id a.startTime a.endTime bookings then
        (.slotAlreadyBooked, slots)
       else if req.disableDay then
         if hasBookingConflict user.id a.day (a.day + dayEndMs) bookings then
           (.dayHasBookings, slots)
         else
           (.dayDisabled,
             updateWhere (fun s => s.tutor == user.id && s.day == a.day)
               (fun s => { s with isActive := false }) slots)
       else
         (.updated (applySlotEdits a req),
           updateWhere (fun s => s.id == sid) (fun _ => applySlotEdits a req) slots)) := by
  rw [patchAvailability, if_pos hrole]
  simp only [hfind]

/-- Unfolding of the DELETE availability handler past role and lookup. -/
theorem deleteAvailability_unfold (user : Principal) (sid : Nat)
    (slots : List Slot) (bookings : List Booking) (users : List UserRec) (a : Slot)
    (hrole : user.role = "tutor") (hfind : findSlot sid slots = some a) :
    deleteAvailability user sid slots bookings users =
      (if hasBookingConflict user.id a.startTime a.endTime bookings then
        (.slotBooked, slots, users)
       else (.deleted, slots.eraseP (fun s => s.id == sid), users)) := by
  rw [deleteAvailability, if_pos hrole]
  simp only [hfind]

/-! ### Claims -/

/-- Claim C1: for a POST of a new availability slot by a tutor who already
has at least one slot for that (tutor, day) pair, the request is rejected
with OutOfOrderSlot exactly when the proposed startTime is before the
endTime of the latest existing slot of that day (the last slot when sorted
by startTime ascending); only that last slot's endTime is used as the
floor, earlier slots are never compared, and a proposed slot whose
startTime is at or after the floor is accepted. -/
theorem c1_last_slot_floor
    (user : Principal) (r : SlotReq) (now nextId : Nat)
    (slots : List Slot) (users : List UserRec) (lastSlot : Slot)
    (hrole : user.role = "tutor")
    (hpast : ¬ r.startTime < now)
    (hlast : (sortByStart (slots.filter (fun s => s.tutor == user.id && s.day == r.day))).getLast?
      = some lastSlot) :
    ((postAvailability user [r] now nextId slots users).1
        = .outOfOrder r.subject lastSlot.endTime ↔ r.startTime < lastSlot.endTime)
    ∧ (lastSlot.endTime ≤ r.startTime →
        (postAvailability user [r] now nextId slots users).1 = .created [nextId])
    ∧ (∀ slots' : List Slot,
        (sortByStart (slots'.filter (fun s => s.tutor == user.id && s.day == r.day))).getLast?
          = some lastSlot →
        (postAvailability user [r] now nextId slots users).1
          = (postAvailability user [r] now nextId slots' users).1) := by
  have post : ∀ db : List Slot,
      (sortByStart (db.filter (fun s => s.tutor == user.id && s.day == r.day))).getLast?
        = some lastSlot →
      (postAvailability user [r] now nextId db users).1 =
        (if r.startTime < lastSlot.endTime
         then .outOfOrder r.subject lastSlot.endTime
         else .created [nextId]) := by
    intro db hdb
    rw [postAvailability, if_pos hrole,
      processSlots_single now user.id r nextId db lastSlot hpast hdb]
    by_cases h : r.startTime < lastSlot.endTime
    · rw [if_pos h, if_pos h]
    · rw [if_neg h, if_neg h]
  refine ⟨?_, ?_, ?_⟩
  · rw [post slots hlast]
    by_cases h : r.startTime < lastSlot.endTime
    · simp [h]
    · simp [h]
  · intro h
    rw [post slots hlast, if_neg (Nat.not_lt.mpr h)]
  · intro slots' h'
    rw [post slots hlast, post slots' h']

/-- Witness for C1: the spec's own scenario — an existing 9:00–10:00 slot
rejects a proposed 9:30 start, citing the 10:00 floor. -/
theorem c1_last_slot_floor_witness :
    (postAvailability ⟨1, "tutor"⟩ [⟨0, "math", 34200000, 37800000⟩] 0 5
      [⟨1, 1, 0, "math", 32400000, 36000000, true⟩] []).1
      = .outOfOrder "math" 36000000 :=
  ((c1_last_slot_floor ⟨1, "tutor"⟩ ⟨0, "math", 34200000, 37800000⟩ 0 5
      [⟨1, 1, 0, "math", 32400000, 36000000, true⟩] []
      ⟨1, 1, 0, "math", 32400000, 36000000, true⟩
      rfl (by decide) (by decide)).1).mpr (by decide)

/-- Counterexample to claim C2 (completed and cancelled are terminal): a
booking whose status is completed is changed to cancelled by a
student-role status-update request, so completed is not terminal. -/
theorem c2_counterexample :
    ((⟨1, 10, 20, "math", 1000, "completed"⟩ : Booking).status = "completed"
      ∧ (patchBooking ⟨99, "student"⟩ 1 ⟨some "cancelled", none⟩
          [⟨1, 10, 20, "math", 1000, "completed"⟩]).1
        = .updated ⟨1, 10, 20, "math", 1000, "cancelled"⟩
      ∧ ("cancelled" : String) ≠ "completed") := by decide

/-- Claim C2 as amended: the status-update handler never inspects the
booking's current status, so completed and cancelled are not terminal;
from any current status (completed and cancelled included) a tutor-role
request sets confirmed or completed and a student-role request sets
cancelled. -/
theorem c2_terminal_not_enforced
    (user : Principal) (bid : Nat) (bookings : List Booking) (b : Booking)
    (hfind : bookings.find? (fun x => x.id == bid) = some b)
    (hterm : b.status = "completed" ∨ b.status = "cancelled") :
    (user.role = "tutor" → ∀ s, s = "confirmed" ∨ s = "completed" →
      (patchBooking user bid ⟨some s, none⟩ bookings).1 = .updated { b with status := s })
    ∧ (user.role = "student" →
      (patchBooking user bid ⟨some "cancelled", none⟩ bookings).1
        = .updated { b with status := "cancelled" }) := by
  constructor
  · intro hrole s hs
    have hv : validStatuses.contains s = true := by
      rcases hs with rfl | rfl <;> decide
    rw [patchBooking]
    simp only [hfind]
    rw [if_neg (not_not_intro hv), if_pos hrole, if_pos hs]
    simp [saveBookingPatch]
  · intro hrole
    have hne : user.role ≠ "tutor" := by rw [hrole]; decide
    rw [patchBooking]
    simp only [hfind]
    rw [if_neg (by decide), if_neg hne, if_pos hrole]
    simp [saveBookingPatch]

/-- Witness for the amended C2: a tutor confirms a booking that was
already cancelled. -/
theorem c2_terminal_not_enforced_witness :
    (patchBooking ⟨99, "tutor"⟩ 1 ⟨some "confirmed", none⟩
      [⟨1, 10, 20, "math", 1000, "cancelled"⟩]).1
      = .updated ⟨1, 10, 20, "math", 1000, "confirmed"⟩ :=
  (c2_terminal_not_enforced ⟨99, "tutor"⟩ 1 [⟨1, 10, 20, "math", 1000, "cancelled"⟩]
      ⟨1, 10, 20, "math", 1000, "cancelled"⟩ (by decide) (Or.inr rfl)).1
    rfl "confirmed" (Or.inl rfl)

/-- Claim C3: for a PATCH of an existing booking that supplies a status, an
unrecognized status fails with InvalidStatus; a tutor-role requester
succeeds exactly on confirmed or completed and gets ForbiddenTransition on
cancelled; a student-role requester succeeds exactly on cancelled and gets
ForbiddenTransition on confirmed or completed. -/
theorem c3_status_authority
    (user : Principal) (bid : Nat) (s : String) (t : Option Nat)
    (bookings : List Booking) (b : Booking)
    (hfind : bookings.find? (fun x => x.id == bid) = some b) :
    (¬ (s = "confirmed" ∨ s = "completed" ∨ s = "cancelled") →
      (patchBooking user bid ⟨some s, t⟩ bookings).1 = .invalidStatus)
    ∧ (user.role = "tutor" → s = "confirmed" ∨ s = "completed" →
      (patchBooking user bid ⟨some s, t⟩ bookings).1
        = .updated { b with status := s, bookingTime := t.getD b.bookingTime })
    ∧ (user.role = "tutor" → s = "cancelled" →
      (patchBooking user bid ⟨some s, t⟩ bookings).1 = .forbiddenTransition)
    ∧ (user.role = "student" → s = "cancelled" →
      (patchBooking user bid ⟨some s, t⟩ bookings).1
        = .updated { b with status := s, bookingTime := t.getD b.bookingTime })
    ∧ (user.role = "student" → s = "confirmed" ∨ s = "completed" →
      (patchBooking user bid ⟨some s, t⟩ bookings).1 = .forbiddenTransition) := by
  have hmem : validStatuses.contains s = true ↔
      (s = "confirmed" ∨ s = "completed" ∨ s = "cancelled") := by
    simp [validStatuses]
  refine ⟨?_, ?_, ?_, ?_, ?_⟩
  · intro hs
    rw [patchBooking]
    simp only [hfind]
    rw [if_pos (fun hc => hs (hmem.mp hc))]
  · intro hrole hs
    rw [patchBooking]
    simp only [hfind]
    rw [if_neg (not_not_intro (hmem.mpr (by tauto))), if_pos hrole, if_pos hs]
    simp [saveBookingPatch]
  · intro hrole hs
    subst hs
    rw [patchBooking]
    simp only [hfind]
    rw [if_neg (by decide), if_pos hrole, if_neg (by decide)]
  · intro hrole hs
    subst hs
    have hne : user.role ≠ "tutor" := by rw [hrole]; decide
    rw [patchBooking]
    simp only [hfind]
    rw [if_neg (by decide), if_neg hne, if_pos hrole]
    simp [saveBookingPatch]
  · intro hrole hs
    have hne : user.role ≠ "tutor" := by rw [hrole]; decide
    rw [patchBooking]
    simp only [hfind]
    rw [if_neg (not_not_intro (hmem.mpr (by tauto))), if_neg hne, if_pos hrole,
      if_neg (by rcases hs with rfl | rfl <;> decide)]

/-- Witness for C3: a student cancels a pending booking. -/
theorem c3_status_authority_witness :
    (patchBooking ⟨99, "student"⟩ 1 ⟨some "cancelled", none⟩
      [⟨1, 10, 20, "math", 1000, "pending"⟩]).1
      = .updated ⟨1, 10, 20, "math", 1000, "cancelled"⟩ :=
  (c3_status_authority ⟨99, "student"⟩ 1 "cancelled" none
      [⟨1, 10, 20, "math", 1000, "pending"⟩] ⟨1, 10, 20, "math", 1000, "pending"⟩
      (by decide)).2.2.2.1 rfl rfl

/-- Claim C4: a PATCH or DELETE of an existing availability slot (owned by
the requesting tutor) is rejected with SlotAlreadyBooked exactly when some
booking of that tutor has bookingTime in the half-open window from the
slot's startTime (inclusive) to its endTime (exclusive); with no such
booking the mutation proceeds. -/
theorem c4_booked_slot_guard
    (user : Principal) (sid : Nat) (req : PatchAvailReq)
    (slots : List Slot) (bookings : List Booking) (users : List UserRec) (a : Slot)
    (hrole : user.role = "tutor")
    (hfind : findSlot sid slots = some a)
    (hown : a.tutor = user.id) :
    ((patchAvailability user sid req slots bookings).1 = .slotAlreadyBooked ↔
      ∃ b ∈ bookings, b.tutor = a.tutor ∧ a.startTime ≤ b.bookingTime ∧ b.bookingTime < a.endTime)
    ∧ ((deleteAvailability user sid slots bookings users).1 = .slotBooked ↔
      ∃ b ∈ bookings, b.tutor = a.tutor ∧ a.startTime ≤ b.bookingTime ∧ b.bookingTime < a.endTime)
    ∧ (req.disableDay = false →
      ¬ (∃ b ∈ bookings, b.tutor = a.tutor ∧ a.startTime ≤ b.bookingTime ∧
          b.bookingTime < a.endTime) →
      (patchAvailability user sid req slots bookings).1 = .updated (applySlotEdits a req))
    ∧ (¬ (∃ b ∈ bookings, b.tutor = a.tutor ∧ a.startTime ≤ b.bookingTime ∧
          b.bookingTime < a.endTime) →
      (deleteAvailability user sid slots bookings users).1 = .deleted) := by
  have hiff : hasBookingConflict user.id a.startTime a.endTime bookings = true ↔
      ∃ b ∈ bookings, b.tutor = a.tutor ∧ a.startTime ≤ b.bookingTime ∧
        b.bookingTime < a.endTime := by
    rw [hasBookingConflict_iff, hown]
  rw [patchAvailability_unfold user sid req slots bookings a hrole hfind,
    deleteAvailability_unfold user sid slots bookings users a hrole hfind]
  by_cases hc : hasBookingConflict user.id a.startTime a.endTime bookings = true
  · refine ⟨?_, ?_, ?_, ?_⟩
    · rw [if_pos hc]
      simpa using hiff.mp hc
    · rw [if_pos hc]
      simpa using hiff.mp hc
    · intro _ hno
      exact absurd (hiff.mp hc) hno
    · intro hno
      exact absurd (hiff.mp hc) hno
  · have hnex : ¬ ∃ b ∈ bookings, b.tutor = a.tutor ∧ a.startTime ≤ b.bookingTime ∧
        b.bookingTime < a.endTime := fun h => hc (hiff.mpr h)
    rw [if_neg hc, if_neg hc]
    refine ⟨?_, ?_, ?_, ?_⟩
    · refine iff_of_false ?_ hnex
      intro h
      by_cases hd : req.disableDay = true
      · rw [if_pos hd] at h
        by_cases hdc : hasBookingConflict user.id a.day (a.day + dayEndMs) bookings = true
        · rw [if_pos hdc] at h
          exact PatchAvailResult.noConfusion h
        · rw [if_neg hdc] at h
          exact PatchAvailResult.noConfusion h
      · rw [if_neg hd] at h
        exact PatchAvailResult.noConfusion h
    · exact iff_of_false (fun h => DeleteAvailResult.noConfusion h) hnex
    · intro hd _
      rw [if_neg (show ¬ req.disableDay = true by rw [hd]; exact Bool.false_ne_true)]
    · intro _
      rfl

/-- Witness for C4: the spec's scenario — a booking at 10:30 blocks
deleting the 10:00–11:00 slot. -/
theorem c4_booked_slot_guard_witness :
    (deleteAvailability ⟨1, "tutor"⟩ 1 [⟨1, 1, 0, "m", 36000000, 39600000, true⟩]
      [⟨1, 2, 1, "m", 37800000, "pending"⟩] []).1 = .slotBooked :=
  ((c4_booked_slot_guard ⟨1, "tutor"⟩ 1 ⟨none, none, none, false, none⟩
      [⟨1, 1, 0, "m", 36000000, 39600000, true⟩] [⟨1, 2, 1, "m", 37800000, "pending"⟩] []
      ⟨1, 1, 0, "m", 36000000, 39600000, true⟩
      rfl (by decide) rfl).2.1).mpr (by decide)

/-- Counterexample to claim C5 (the day-disable check covers the closed
window up to 23:59:59.999): a booking of the requesting tutor at exactly
day start plus 86399999 ms — inside the claimed closed window — does not
block the disable: the handler's query uses a strict upper bound, so the
request succeeds with dayDisabled instead of being rejected. -/
theorem c5_counterexample :
    ((⟨9, 2, 1, "m", 86399999, "pending"⟩ : Booking).tutor = 1
      ∧ (0 : Nat) ≤ 86399999 ∧ (86399999 : Nat) ≤ 0 + 86399999
      ∧ (patchAvailability ⟨1, "tutor"⟩ 1 ⟨none, none, none, true, none⟩
          [⟨1, 1, 0, "m", 32400000, 36000000, true⟩]
          [⟨9, 2, 1, "m", 86399999, "pending"⟩]).1 = .dayDisabled
      ∧ (patchAvailability ⟨1, "tutor"⟩ 1 ⟨none, none, none, true, none⟩
          [⟨1, 1, 0, "m", 32400000, 36000000, true⟩]
          [⟨9, 2, 1, "m", 86399999, "pending"⟩]).1 ≠ .dayHasBookings
      ∧ (patchAvailability ⟨1, "tutor"⟩ 1 ⟨none, none, none, true, none⟩
          [⟨1, 1, 0, "m", 32400000, 36000000, true⟩]
          [⟨9, 2, 1, "m", 86399999, "pending"⟩]).1 ≠ .slotAlreadyBooked) := by decide

/-- Claim C5 as amended: for a day-disable request that passes the
slot-window booking check, the day check covers the half-open window from
day 00:00:00.000 (inclusive) to day 23:59:59.999 (exclusive): the request
is rejected exactly when some booking of the requesting tutor falls in
that half-open window, and otherwise it succeeds and every availability
slot of the requesting tutor for that day is set to isActive = false. -/
theorem c5_day_disable_window
    (user : Principal) (sid : Nat) (req : PatchAvailReq)
    (slots : List Slot) (bookings : List Booking) (a : Slot)
    (hrole : user.role = "tutor")
    (hfind : findSlot sid slots = some a)
    (hdis : req.disableDay = true)
    (hslot : hasBookingConflict user.id a.startTime a.endTime bookings = false) :
    ((patchAvailability user sid req slots bookings).1 = .dayHasBookings ↔
      ∃ b ∈ bookings, b.tutor = user.id ∧ a.day ≤ b.bookingTime ∧ b.bookingTime < a.day + dayEndMs)
    ∧ (¬ (∃ b ∈ bookings, b.tutor = user.id ∧ a.day ≤ b.bookingTime ∧
          b.bookingTime < a.day + dayEndMs) →
      (patchAvailability user sid req slots bookings).1 = .dayDisabled
      ∧ ∀ s ∈ (patchAvailability user sid req slots bookings).2,
          s.tutor = user.id → s.day = a.day → s.isActive = false) := by
  have hcn : ¬ hasBookingConflict user.id a.startTime a.endTime bookings = true := by
    rw [hslot]; exact Bool.false_ne_true
  rw [patchAvailability_unfold user sid req slots bookings a hrole hfind, if_neg hcn, if_pos hdis]
  by_cases hdc : hasBookingConflict user.id a.day (a.day + dayEndMs) bookings = true
  · rw [if_pos hdc]
    refine ⟨by simpa using (hasBookingConflict_iff user.id a.day (a.day + dayEndMs)
      bookings).mp hdc, ?_⟩
    intro hno
    exact absurd ((hasBookingConflict_iff user.id a.day (a.day + dayEndMs) bookings).mp hdc) hno
  · rw [if_neg hdc]
    have hnex : ¬ ∃ b ∈ bookings, b.tutor = user.id ∧ a.day ≤ b.bookingTime ∧
        b.bookingTime < a.day + dayEndMs :=
      fun h => hdc ((hasBookingConflict_iff user.id a.day (a.day + dayEndMs) bookings).mpr h)
    refine ⟨iff_of_false (fun h => PatchAvailResult.noConfusion h) hnex, ?_⟩
    intro _
    refine ⟨rfl, ?_⟩
    intro s hs hst hsd
    rcases mem_updateWhere hs with ⟨y, _, _, rfl⟩ | ⟨_, hps⟩
    · rfl
    · exfalso
      rw [Bool.eq_false_iff] at hps
      exact hps (by simp [hst, hsd])

/-- Witness for the amended C5: a booking strictly inside the day window
blocks the disable. -/
theorem c5_day_disable_window_witness :
    (patchAvailability ⟨1, "tutor"⟩ 1 ⟨none, none, none, true, none⟩
      [⟨1, 1, 0, "m", 32400000, 36000000, true⟩]
      [⟨9, 2, 1, "m", 40000000, "pending"⟩]).1 = .dayHasBookings :=
  ((c5_day_disable_window ⟨1, "tutor"⟩ 1 ⟨none, none, none, true, none⟩
      [⟨1, 1, 0, "m", 32400000, 36000000, true⟩] [⟨9, 2, 1, "m", 40000000, "pending"⟩]
      ⟨1, 1, 0, "m", 32400000, 36000000, true⟩
      rfl (by decide) rfl (by decide)).1).mpr (by decide)

/-- Counterexample to claim C6 (back-reference lists are kept consistent on
every mutation): deleting a tutor's only availability slot removes the
slot from the canonical collection but leaves its identifier in the
tutor's tutoringAvailability list, so after the mutation the two
representations disagree. -/
theorem c6_counterexample :
    ((deleteAvailability ⟨7, "tutor"⟩ 1 [⟨1, 7, 0, "m", 10, 20, true⟩] [] [⟨7, [1], []⟩]).1
        = .deleted
      ∧ (deleteAvailability ⟨7, "tutor"⟩ 1 [⟨1, 7, 0, "m", 10, 20, true⟩] [] [⟨7, [1], []⟩]).2.1
        = []
      ∧ (deleteAvailability ⟨7, "tutor"⟩ 1 [⟨1, 7, 0, "m", 10, 20, true⟩] [] [⟨7, [1], []⟩]).2.2
        = [⟨7, [1], []⟩]) := by decide

/-- Claim C6 as amended: on availability create and study-group
create/join/leave/delete the owning user's back-reference list is updated
in the same operation (identifier appended on create/join, removed on
leave/delete); but on availability delete the back-reference is not
updated — the users collection is returned untouched, so the deleted
slot's identifier remains in tutoringAvailability. -/
theorem c6_backref_sync
    (user : Principal) (users : List UserRec) (u : UserRec)
    (hu : users.find? (fun x => x.id == user.id) = some u) :
    (∀ (reqs : List SlotReq) (now nextId : Nat) (slots : List Slot)
        (ids : List Nat) (db : List Slot),
      user.role = "tutor" →
      processSlots now user.id reqs nextId slots [] = (.created ids, db) →
      ((postAvailability user reqs now nextId slots users).2.2).find? (fun x => x.id == user.id)
        = some { u with tutoringAvailability := u.tutoringAvailability ++ ids })
    ∧ (∀ (newId : Nat) (req : GroupReq) (groups : List StudyGroup),
      user.role = "student" →
      ((createGroup user newId req groups users).2.2).find? (fun x => x.id == user.id)
        = some { u with joinedStudyGroups := u.joinedStudyGroups ++ [newId] })
    ∧ (∀ (gid : Nat) (groups : List StudyGroup) (g : StudyGroup),
      user.role = "student" →
      findGroup gid groups = some g →
      g.creator ≠ user.id →
      g.participants.contains user.id = false →
      ((joinGroup user gid groups users).2.2).find? (fun x => x.id == user.id)
        = some { u with joinedStudyGroups := u.joinedStudyGroups ++ [gid] })
    ∧ (∀ (gid : Nat) (groups : List StudyGroup) (g : StudyGroup),
      user.role = "student" →
      findGroup gid groups = some g →
      g.creator ≠ user.id →
      g.participants.contains user.id = true →
      ((leaveGroup user gid groups users).2.2).find? (fun x => x.id == user.id)
        = some { u with joinedStudyGroups := u.joinedStudyGroups.filter (fun x => x != gid) })
    ∧ (∀ (gid : Nat) (groups : List StudyGroup) (g : StudyGroup),
      findGroup gid groups = some g →
      g.creator = user.id →
      g.participants.filter (fun p => p != user.id) = [] →
      ((deleteGroup user gid groups users).2.2).find? (fun x => x.id == user.id)
        = some { u with joinedStudyGroups := u.joinedStudyGroups.filter (fun x => x != gid) })
    ∧ (∀ (sid : Nat) (slots : List Slot) (bookings : List Booking) (a : Slot),
      user.role = "tutor" →
      findSlot sid slots = some a →
      hasBookingConflict user.id a.startTime a.endTime bookings = false →
      (deleteAvailability user sid slots bookings users).1 = .deleted
      ∧ (deleteAvailability user sid slots bookings users).2.2 = users) := by
  refine ⟨?_, ?_, ?_, ?_, ?_, ?_⟩
  · intro reqs now nextId slots ids db hrole hproc
    rw [postAvailability, if_pos hrole, hproc]
    exact find_updateWhere _ (fun x hx => hx) hu
  · intro newId req groups hrole
    rw [createGroup, if_pos hrole]
    exact find_updateWhere _ (fun x hx => hx) hu
  · intro gid groups g hrole hg hcr hcont
    rw [joinGroup]
    simp only [hg]
    rw [if_neg (not_not_intro hrole), if_neg hcr,
      if_neg (show ¬ g.participants.contains user.id = true by
        rw [hcont]; exact Bool.false_ne_true)]
    exact find_updateWhere _ (fun x hx => hx) hu
  · intro gid groups g hrole hg hcr hcont
    rw [leaveGroup]
    simp only [hg]
    rw [if_neg (not_not_intro hrole), if_neg hcr, if_neg (not_not_intro hcont)]
    exact find_updateWhere _ (fun x hx => hx) hu
  · intro gid groups g hg hcr hfilt
    rw [deleteGroup]
    simp only [hg]
    rw [if_neg (not_not_intro hcr), if_neg (not_not_intro hfilt), hcr]
    exact find_updateWhere _ (fun x hx => hx) hu
  · intro sid slots bookings a hrole hfind hslot
    rw [deleteAvailability_unfold user sid slots bookings users a hrole hfind,
      if_neg (show ¬ hasBookingConflict user.id a.startTime a.endTime bookings = true by
        rw [hslot]; exact Bool.false_ne_true)]
    exact ⟨rfl, rfl⟩

/-- Witness for the amended C6: creating a study group appends its id to
the creator's joinedStudyGroups. -/
theorem c6_backref_sync_witness :
    ((createGroup ⟨5, "student"⟩ 42 ⟨"t", "s", "d", "2025-01-01", "10:00", "60"⟩ []
        [⟨5, [], []⟩]).2.2).find? (fun x => x.id == 5)
      = some ⟨5, [], [42]⟩ :=
  (c6_backref_sync ⟨5, "student"⟩ [⟨5, [], []⟩] ⟨5, [], []⟩ (by decide)).2.1
    42 ⟨"t", "s", "d", "2025-01-01", "10:00", "60"⟩ [] rfl

/-- Claim C7: join followed by leave is a round trip — for a student who is
neither the creator nor a participant, a successful join appends the
student to the participants and a subsequent successful leave restores the
group (participants included) exactly as it was. -/
theorem c7_join_leave_roundtrip
    (user : Principal) (gid : Nat) (groups : List StudyGroup) (users : List UserRec)
    (g : StudyGroup)
    (hrole : user.role = "student")
    (hfind : findGroup gid groups = some g)
    (hcr : g.creator ≠ user.id)
    (hpart : user.id ∉ g.participants) :
    (joinGroup user gid groups users).1
      = .joined { g with participants := g.participants ++ [user.id] }
    ∧ (leaveGroup user gid (joinGroup user gid groups users).2.1
        (joinGroup user gid groups users).2.2).1 = .left g
    ∧ findGroup gid (leaveGroup user gid (joinGroup user gid groups users).2.1
        (joinGroup user gid groups users).2.2).2.1 = some g := by
  have hfind' : groups.find? (fun h => h.id == gid) = some g := hfind
  have hgid0 := List.find?_some hfind'
  have hgid : (g.id == gid) = true := hgid0
  have hcont : g.participants.contains user.id = false := by
    rw [Bool.eq_false_iff]
    intro hc
    exact hpart (by simpa using hc)
  have hjoin : joinGroup user gid groups users =
      (.joined { g with participants := g.participants ++ [user.id] },
        updateWhere (fun h => h.id == gid)
          (fun _ => { g with participants := g.participants ++ [user.id] }) groups,
        updateWhere (fun x => x.id == user.id)
          (fun x => { x with joinedStudyGroups := x.joinedStudyGroups ++ [gid] }) users) := by
    rw [joinGroup]
    simp only [hfind]
    rw [if_neg (not_not_intro hrole), if_neg hcr,
      if_neg (show ¬ g.participants.contains user.id = true by
        rw [hcont]; exact Bool.false_ne_true)]
  have hfound1 : findGroup gid (updateWhere (fun h => h.id == gid)
      (fun _ => { g with participants := g.participants ++ [user.id] }) groups)
      = some { g with participants := g.participants ++ [user.id] } :=
    find_updateWhere _ (fun _ _ => hgid) hfind'
  have hcont2 : ({ g with participants := g.participants ++ [user.id] } :
      StudyGroup).participants.contains user.id = true := by
    simp
  have hfilter : (g.participants ++ [user.id]).filter (fun p => p != user.id) = g.participants :=
    filter_ne_append_self hpart
  have hback : ({ g with participants :=
      (g.participants ++ [user.id]).filter (fun p => p != user.id) } : StudyGroup) = g := by
    rw [hfilter]
  have hleave : leaveGroup user gid
      (updateWhere (fun h => h.id == gid)
        (fun _ => { g with participants := g.participants ++ [user.id] }) groups)
      (updateWhere (fun x => x.id == user.id)
        (fun x => { x with joinedStudyGroups := x.joinedStudyGroups ++ [gid] }) users) =
      (.left g,
        updateWhere (fun h => h.id == gid) (fun _ => g)
          (updateWhere (fun h => h.id == gid)
            (fun _ => { g with participants := g.participants ++ [user.id] }) groups),
        updateWhere (fun x => x.id == user.id)
          (fun x => { x with joinedStudyGroups := x.joinedStudyGroups.filter (fun y => y != gid) })
          (updateWhere (fun x => x.id == user.id)
            (fun x => { x with joinedStudyGroups := x.joinedStudyGroups ++ [gid] }) users)) := by
    rw [leaveGroup]
    simp only [hfound1]
    rw [if_neg (not_not_intro hrole), if_neg hcr, if_neg (not_not_intro hcont2), hback]
  refine ⟨by rw [hjoin], ?_, ?_⟩
  · rw [hjoin]
    simp only []
    rw [hleave]
  · rw [hjoin]
    simp only []
    rw [hleave]
    simp only []
    exact find_updateWhere _ (fun _ _ => hgid) hfound1

/-- Witness for C7: a student joins a group created by user 9. -/
theorem c7_join_leave_roundtrip_witness :
    (joinGroup ⟨5, "student"⟩ 1
      [⟨1, "t", "s", "d", "2025-01-01", "10:00", "60", 9, [9]⟩] [⟨5, [], []⟩]).1
      = .joined ⟨1, "t", "s", "d", "2025-01-01", "10:00", "60", 9, [9, 5]⟩ :=
  (c7_join_leave_roundtrip ⟨5, "student"⟩ 1
      [⟨1, "t", "s", "d", "2025-01-01", "10:00", "60", 9, [9]⟩] [⟨5, [], []⟩]
      ⟨1, "t", "s", "d", "2025-01-01", "10:00", "60", 9, [9]⟩
      rfl (by decide) (by decide) (by decide)).1

/-- Claim C8: a study-group update by the creator is rejected with
GroupLocked (and the groups collection unchanged) when the group has more
than one participant and the request supplies a subject, date, or time
value; a request supplying only description and/or duration succeeds
regardless of the participant count. -/
theorem c8_group_lock
    (user : Principal) (gid : Nat) (req : UpdateGroupReq)
    (groups : List StudyGroup) (g : StudyGroup)
    (hfind : findGroup gid groups = some g)
    (hcr : g.creator = user.id) :
    (1 < g.participants.length →
      (req.subject.isSome ∨ req.date.isSome ∨ req.time.isSome) →
      (updateGroup user gid req groups).1 = .groupLocked
      ∧ (updateGroup user gid req groups).2 = groups)
    ∧ (req.subject = none → req.date = none → req.time = none →
      (updateGroup user gid req groups).1
        = .updated { g with description := req.description.getD g.description,
                            duration := req.duration.getD g.duration }) := by
  constructor
  · intro hlen hsome
    rw [updateGroup]
    simp only [hfind]
    rw [if_neg (not_not_intro hcr), if_pos ⟨hlen, hsome⟩]
    exact ⟨rfl, rfl⟩
  · intro hs hd ht
    rw [updateGroup]
    simp only [hfind]
    rw [if_neg (not_not_intro hcr),
      if_neg (show ¬ (1 < g.participants.length ∧
        (req.subject.isSome ∨ req.date.isSome ∨ req.time.isSome)) by
          rintro ⟨-, h | h | h⟩ <;> simp [hs, hd, ht] at h)]
    simp only [hs, hd, ht, Option.getD_none]

/-- Witness for C8: the spec's scenario — a group with two participants
rejects a subject change by its creator. -/
theorem c8_group_lock_witness :
    (updateGroup ⟨9, "student"⟩ 1 ⟨some "chem", none, none, none, none⟩
      [⟨1, "t", "s", "d", "2025-01-01", "10:00", "60", 9, [9, 5]⟩]).1 = .groupLocked :=
  ((c8_group_lock ⟨9, "student"⟩ 1 ⟨some "chem", none, none, none, none⟩
      [⟨1, "t", "s", "d", "2025-01-01", "10:00", "60", 9, [9, 5]⟩]
      ⟨1, "t", "s", "d", "2025-01-01", "10:00", "60", 9, [9, 5]⟩
      (by decide) rfl).1 (by decide) (Or.inl rfl)).1

/-- Claim C9: PATCH and DELETE on an availability slot never compare the
slot's owner to the requester — for a tutor-role requester and an
existing slot owned by a different tutor the operation proceeds past
authorization (no role or not-found rejection), the booking-conflict
query filters bookings by the requester's id (not the owner's), and with
no conflicting booking of the requester the foreign slot is updated or
deleted. -/
theorem c9_no_ownership_check
    (user : Principal) (sid : Nat) (req : PatchAvailReq)
    (slots : List Slot) (bookings : List Booking) (users : List UserRec) (a : Slot)
    (hrole : user.role = "tutor")
    (hfind : findSlot sid slots = some a)
    (hforeign : a.tutor ≠ user.id) :
    (patchAvailability user sid req slots bookings).1 ≠ .forbiddenRole
    ∧ (patchAvailability user sid req slots bookings).1 ≠ .notFound
    ∧ (deleteAvailability user sid slots bookings users).1 ≠ .forbiddenRole
    ∧ (deleteAvailability user sid slots bookings users).1 ≠ .notFound
    ∧ ((patchAvailability user sid req slots bookings).1 = .slotAlreadyBooked ↔
        ∃ b ∈ bookings, b.tutor = user.id ∧ a.startTime ≤ b.bookingTime ∧
          b.bookingTime < a.endTime)
    ∧ ((deleteAvailability user sid slots bookings users).1 = .slotBooked ↔
        ∃ b ∈ bookings, b.tutor = user.id ∧ a.startTime ≤ b.bookingTime ∧
          b.bookingTime < a.endTime)
    ∧ (hasBookingConflict user.id a.startTime a.endTime bookings = false →
        (deleteAvailability user sid slots bookings users).1 = .deleted
        ∧ (req.disableDay = false →
          (patchAvailability user sid req slots bookings).1
            = .updated (applySlotEdits a req))) := by
  have hiff := hasBookingConflict_iff user.id a.startTime a.endTime bookings
  rw [patchAvailability_unfold user sid req slots bookings a hrole hfind,
    deleteAvailability_unfold user sid slots bookings users a hrole hfind]
  by_cases hc : hasBookingConflict user.id a.startTime a.endTime bookings = true
  · rw [if_pos hc, if_pos hc]
    refine ⟨fun h => PatchAvailResult.noConfusion h, fun h => PatchAvailResult.noConfusion h,
      fun h => DeleteAvailResult.noConfusion h, fun h => DeleteAvailResult.noConfusion h,
      iff_of_true rfl (hiff.mp hc), iff_of_true rfl (hiff.mp hc), ?_⟩
    intro hfalse
    rw [hfalse] at hc
    exact absurd hc Bool.false_ne_true
  · have hnex : ¬ ∃ b ∈ bookings, b.tutor = user.id ∧ a.startTime ≤ b.bookingTime ∧
        b.bookingTime < a.endTime := fun h => hc (hiff.mpr h)
    rw [if_neg hc, if_neg hc]
    have hpatch : ∀ x : PatchAvailResult,
        ((if req.disableDay then
            if hasBookingConflict user.id a.day (a.day + dayEndMs) bookings then
              ((.dayHasBookings : PatchAvailResult), slots)
            else (.dayDisabled,
              updateWhere (fun s => s.tutor == user.id && s.day == a.day)
                (fun s => { s with isActive := false }) slots)
          else (.updated (applySlotEdits a req),
            updateWhere (fun s => s.id == sid) (fun _ => applySlotEdits a req) slots)).1 = x)
        → x = .dayHasBookings ∨ x = .dayDisabled ∨ x = .updated (applySlotEdits a req) := by
      intro x h
      by_cases hd : req.disableDay = true
      · rw [if_pos hd] at h
        by_cases hdc : hasBookingConflict user.id a.day (a.day + dayEndMs) bookings = true
        · rw [if_pos hdc] at h
          exact Or.inl h.symm
        · rw [if_neg hdc] at h
          exact Or.inr (Or.inl h.symm)
      · rw [if_neg hd] at h
        exact Or.inr (Or.inr h.symm)
    refine ⟨?_, ?_, fun h => DeleteAvailResult.noConfusion h,
      fun h => DeleteAvailResult.noConfusion h,
      ?_, iff_of_false (fun h => DeleteAvailResult.noConfusion h) hnex, ?_⟩
    · intro h
      rcases hpatch _ h with h' | h' | h' <;> exact PatchAvailResult.noConfusion h'
    · intro h
      rcases hpatch _ h with h' | h' | h' <;> exact PatchAvailResult.noConfusion h'
    · refine iff_of_false ?_ hnex
      intro h
      rcases hpatch _ h with h' | h' | h' <;> exact PatchAvailResult.noConfusion h'
    · intro _
      refine ⟨rfl, ?_⟩
      intro hd
      rw [if_neg (show ¬ req.disableDay = true by rw [hd]; exact Bool.false_ne_true)]

/-- Witness for C9: tutor 3 deletes a slot owned by tutor 7. -/
theorem c9_no_ownership_check_witness :
    (deleteAvailability ⟨3, "tutor"⟩ 1 [⟨1, 7, 0, "m", 10, 20, true⟩] [] []).1 = .deleted :=
  (((c9_no_ownership_check ⟨3, "tutor"⟩ 1 ⟨none, none, none, false, none⟩
      [⟨1, 7, 0, "m", 10, 20, true⟩] [] [] ⟨1, 7, 0, "m", 10, 20, true⟩
      rfl (by decide) (by decide)).2.2.2.2.2.2) rfl).1

/-- Claim C10: PATCH on a booking never checks that the requester is a
party to it — for an existing booking and a requester who is neither its
student nor its tutor, a student-role requester sets cancelled, a
tutor-role requester sets confirmed or completed, and a requester of
either role overwrites bookingTime with an arbitrary value with no
validation of the new time. -/
theorem c10_no_party_check
    (user : Principal) (bid : Nat) (bookings : List Booking) (b : Booking)
    (hfind : bookings.find? (fun x => x.id == bid) = some b)
    (hstranger : user.id ≠ b.student ∧ user.id ≠ b.tutor) :
    (user.role = "student" →
      (patchBooking user bid ⟨some "cancelled", none⟩ bookings).1
        = .updated { b with status := "cancelled" })
    ∧ (user.role = "tutor" → ∀ s, s = "confirmed" ∨ s = "completed" →
      (patchBooking user bid ⟨some s, none⟩ bookings).1 = .updated { b with status := s })
    ∧ ((user.role = "tutor" ∨ user.role = "student") → ∀ t : Nat,
      (patchBooking user bid ⟨none, some t⟩ bookings).1
        = .updated { b with bookingTime := t }) := by
  refine ⟨?_, ?_, ?_⟩
  · intro hrole
    have hne : user.role ≠ "tutor" := by rw [hrole]; decide
    rw [patchBooking]
    simp only [hfind]
    rw [if_neg (by decide), if_neg hne, if_pos hrole]
    simp [saveBookingPatch]
  · intro hrole s hs
    have hv : validStatuses.contains s = true := by
      rcases hs with rfl | rfl <;> decide
    rw [patchBooking]
    simp only [hfind]
    rw [if_neg (not_not_intro hv), if_pos hrole, if_pos hs]
    simp [saveBookingPatch]
  · intro _ t
    rw [patchBooking]
    simp only [hfind]
    simp [saveBookingPatch]

/-- Witness for C10: user 99, a stranger to booking 1, cancels it. -/
theorem c10_no_party_check_witness :
    (patchBooking ⟨99, "student"⟩ 1 ⟨some "cancelled", none⟩
      [⟨1, 10, 20, "math", 1000, "pending"⟩]).1
      = .updated ⟨1, 10, 20, "math", 1000, "cancelled"⟩ :=
  (c10_no_party_check ⟨99, "student"⟩ 1 [⟨1, 10, 20, "math", 1000, "pending"⟩]
      ⟨1, 10, 20, "math", 1000, "pending"⟩ (by decide) (by decide)).1 rfl

end CourseCorrect
